import Mathlib

/-
Verification of the interactive shell controller (`core/terminal_manager.py`)
and the ANSI escape decoder (`ui/terminal_panel.py`) of the CTool repository.

The embedding models the observable state of one `TerminalManager` session and
its operations.  OS-level effects are passed in as explicit parameters:
`fsExists` models `os.path.exists`, `cwd` models `os.getcwd()`, `normpath`
models `os.path.normpath`, `writeOk` models a successful `stdin.write`/`flush`
(present stdin pipe, no exception), and `spawn` models `subprocess.Popen`
(returning a process handle or failing).  Time (sleeps, timeouts) is not
modelled; queue drains operate on the queue contents present at the call.
-/

/-- Tag of the originating pipe stream of one output line
(`('stdout', line)` / `('stderr', line)` tuples in the source). -/
inductive StreamTag where
  | stdout
  | stderr
deriving DecidableEq

/-- An element of `self.output_queue`: the stream tag plus the raw line text. -/
structure OutputLine where
  stream : StreamTag
  text : String
deriving DecidableEq

/-- Abstraction of a `subprocess.Popen` handle: the pid distinguishes distinct
child processes, `exited` is the result of the liveness probe
(`poll() is not None`). -/
structure Proc where
  pid : Nat
  exited : Bool
deriving DecidableEq

/-- The mutable per-session state of `TerminalManager` that the verified
operations touch: `self.working_directory`, `self.process`, `self.is_running`.
`working_directory` is a plain string as in the source; the Python-falsy value
`None`/`""` is represented by `""`. -/
structure TMState where
  working_directory : String
  process : Option Proc
  is_running : Bool
deriving DecidableEq

/-- `TerminalManager.is_process_running`:
`bool(self.is_running and self.process and self.process.poll() is None)`. -/
def is_process_running (s : TMState) : Bool :=
  s.is_running && (match s.process with
    | some p => !p.exited
    | none => false)

/-- The executable chosen by `start_terminal`: the PowerShell 7 path when it
exists on disk, otherwise the fallback `powershell.exe`. -/
def powershell_path (fsExists : String → Bool) : String :=
  if fsExists "C:\\Program Files\\PowerShell\\7\\pwsh.exe" then
    "C:\\Program Files\\PowerShell\\7\\pwsh.exe"
  else
    "powershell.exe"

/-- `TerminalManager.start_terminal`.  `spawn` models `subprocess.Popen` on the
chosen executable (`none` = the spawn raised).  Result: the returned boolean,
the new state, and whether a spawn was attempted (the source always calls
`Popen`; there is no already-alive guard before it).  On spawn success the
handle is overwritten and `is_running` set; on failure the state is left as it
was and `False` is returned. -/
def start_terminal (fsExists : String → Bool) (spawn : String → Option Proc)
    (s : TMState) : Bool × TMState × Bool :=
  match spawn (powershell_path fsExists) with
  | some p => (true, { s with process := some p, is_running := true }, true)
  | none => (false, s, true)

/-- `TerminalManager.send_input`: succeeds only when the process is alive and
the write+flush to stdin succeeds (`writeOk`); the second component is the text
actually written (`input_text` plus a newline iff `add_newline`). -/
def send_input (s : TMState) (writeOk : Bool) (input_text : String)
    (add_newline : Bool) : Bool × Option String :=
  if is_process_running s = true then
    if writeOk = true then
      (true, some (input_text ++ (if add_newline then "\n" else "")))
    else
      (false, none)
  else
    (false, none)

/-- The composed command of `execute_command`:
`full_command = f'Set-Location "working_dir"; command' if working_dir else command`.
Note the Python truthiness test: an empty-string `working_dir` is treated like
an absent one. -/
def compose_command (working_dir : Option String) (command : String) : String :=
  match working_dir with
  | some wd =>
      if wd ≠ "" then "Set-Location \"" ++ wd ++ "\"; " ++ command else command
  | none => command

/-- `TerminalManager.execute_command`.  Returns the boolean result, the text
written to stdin (if any), and the session state afterwards (the body never
assigns `self.working_directory`).  The directory-existence guard is
`if working_dir and not os.path.exists(working_dir)`, so it fires only for a
truthy (non-empty) `working_dir`. -/
def execute_command (fsExists : String → Bool) (writeOk : Bool) (s : TMState)
    (command : String) (working_dir : Option String)
    (execute_immediately : Bool) : Bool × Option String × TMState :=
  if is_process_running s = false then
    (false, none, s)
  else if (match working_dir with
      | some wd => wd ≠ "" && !(fsExists wd)
      | none => false) = true then
    (false, none, s)
  else
    let r := send_input s writeOk (compose_command working_dir command)
      execute_immediately
    (r.1, r.2, s)

/-- `TerminalManager.change_directory`: rejects a path that does not exist;
otherwise, on a running process, sends `Set-Location "<dir>"` with a newline
and, only when the send succeeded, stores the new directory. -/
def change_directory (fsExists : String → Bool) (writeOk : Bool) (s : TMState)
    (new_directory : String) : Bool × TMState :=
  if fsExists new_directory = false then
    (false, s)
  else if is_process_running s = true then
    let success := (send_input s writeOk
      ("Set-Location \"" ++ new_directory ++ "\"") true).1
    if success then
      (true, { s with working_directory := new_directory })
    else
      (false, s)
  else
    (false, s)

/-- `TerminalManager.get_output`: pops every queued item, appending `item[1]`
(the text component only) to the result, until the queue raises `Empty`.
Returns the collected texts and the queue contents afterwards. -/
def get_output : List OutputLine → List String × List OutputLine
  | [] => ([], [])
  | item :: rest =>
      let r := get_output rest
      (item.text :: r.1, r.2)

/-- `TerminalManager.stop_terminal`: sets `is_running = False` first, then, if
a handle is present, performs the graduated teardown (exit directive, bounded
waits, terminate, kill — every step swallows its own errors and none of them
changes the controller-visible state) and clears the handle.  Returns `True`. -/
def stop_terminal (s : TMState) : Bool × TMState :=
  let s1 : TMState := { s with is_running := false }
  match s1.process with
  | none => (true, s1)
  | some _ => (true, { s1 with process := none })

/-- Python `str.strip()`: leading and trailing whitespace removed.  (Defined
over the character list so that it is structurally recursive and evaluates in
the kernel; the library `String.trim` is well-founded-recursive.) -/
def pyStrip (s : String) : String :=
  String.mk (((s.data.dropWhile Char.isWhitespace).reverse.dropWhile
    Char.isWhitespace).reverse)

/-- Python `str.startswith(pre)`. -/
def startsWithS (s pre : String) : Bool := pre.data.isPrefixOf s.data

/-- Python `str.endswith(suf)`. -/
def endsWithS (s suf : String) : Bool :=
  suf.data.reverse.isPrefixOf s.data.reverse

/-- Python `str.lower()` (ASCII case folding suffices for the compared
literals). -/
def lowerS (s : String) : String := String.mk (s.data.map Char.toLower)

/-- The per-line filter inside `get_current_directory`: the drained line is
stripped; prompt echoes (`PS ...>`), table separators (`----...`), header lines
(case-insensitive `path...`, exact `Path`) are rejected; the survivor must
contain a `:` and have more than two characters. -/
def acceptable_path (output : String) : Bool :=
  let t := pyStrip output
  (t ≠ "" && !(startsWithS t "PS " && endsWithS t ">")) &&
    (t ≠ "" && !(startsWithS t "----") && !(startsWithS (lowerS t) "path") &&
      t ≠ "Path") &&
    (t.data.contains ':' && decide (t.data.length > 2))

/-- The loop over drained outputs in `get_current_directory`: the first line
passing `acceptable_path` is accepted (stripped); later lines are ignored. -/
def first_acceptable : List String → Option String
  | [] => none
  | o :: rest =>
      if acceptable_path o then some (pyStrip o) else first_acceptable rest

/-- `TerminalManager.get_current_directory`.  `cwd` models `os.getcwd()`,
`normpath` models `os.path.normpath`, `queue` is the current output queue
(drained through `get_output`).  Result: the returned string, the state
afterwards, and whether a DirectoryQuery (send `(Get-Location).Path`, settle,
drain, filter) was performed.  The source returns the stored
`self.working_directory` first whenever it is truthy, before any aliveness
check or I/O. -/
def get_current_directory (cwd : String) (normpath : String → String)
    (s : TMState) (queue : List OutputLine) : String × TMState × Bool :=
  if s.working_directory ≠ "" then
    (s.working_directory, s, false)
  else if is_process_running s = false then
    ((if s.working_directory ≠ "" then s.working_directory else cwd), s, false)
  else
    match first_acceptable (get_output queue).1 with
    | some p =>
        let np := normpath p
        (np, { s with working_directory := np }, true)
    | none =>
        ((if s.working_directory ≠ "" then s.working_directory else cwd), s,
          true)

/-- `TerminalManager.__init__` callback list: at most the one optional
`output_callback` argument is appended. -/
def init_callbacks {α : Type} (output_callback : Option α) : List α :=
  match output_callback with
  | none => []
  | some c => [c]

/-- `TerminalManager.register_output_callback`: under the callback lock, a
truthy callback is appended only when not already present. -/
def register_output_callback {α : Type} [DecidableEq α] (cbs : List α)
    (callback : Option α) : List α :=
  match callback with
  | none => cbs
  | some c => if c ∈ cbs then cbs else cbs ++ [c]

/-- `TerminalManager.unregister_output_callback`: under the callback lock, a
truthy callback is removed (`list.remove`, first occurrence) only when
present. -/
def unregister_output_callback {α : Type} [DecidableEq α] (cbs : List α)
    (callback : Option α) : List α :=
  match callback with
  | none => cbs
  | some c => if c ∈ cbs then cbs.erase c else cbs

/-- One iteration of a reader loop, as a function of the `readline` result
(`""` is Python's end-of-stream result).  `_read_stdout` breaks on an empty
read (`if not line: break`) and delivers lines whose stripped text is
non-empty; `_read_stderr` has no end-of-stream break (`if line:` only) and
delivers every non-empty line. -/
inductive ReadStep where
  | exit
  | deliver (line : OutputLine)
  | skip
deriving DecidableEq

/-- Loop body of `TerminalManager._read_stdout` for one `readline` result. -/
def stdout_step (line : String) : ReadStep :=
  if line = "" then ReadStep.exit
  else if pyStrip line ≠ "" then ReadStep.deliver ⟨StreamTag.stdout, line⟩
  else ReadStep.skip

/-- Loop body of `TerminalManager._read_stderr` for one `readline` result. -/
def stderr_step (line : String) : ReadStep :=
  if line ≠ "" then ReadStep.deliver ⟨StreamTag.stderr, line⟩
  else ReadStep.skip

/-- A reader loop run over a finite sequence of `readline` results, with the
run-state held at `Running` throughout (cancellation is cooperative and out of
scope of the single-threaded embedding).  Produces the `OutputLine`s pushed
onto the delivery queue, in order. -/
def run_reader (step : String → ReadStep) : List String → List OutputLine
  | [] => []
  | l :: rest =>
      match step l with
      | ReadStep.exit => []
      | ReadStep.deliver ol => ol :: run_reader step rest
      | ReadStep.skip => run_reader step rest

/-- The fan-out loop over `self.output_callbacks`: each callback is invoked on
the line inside its own `try/except` (a raising callback is logged and the
loop proceeds to the next).  A callback is modelled as `String → Except Unit
Unit`, `Except.error` being a raise; the result records, per registered
callback, whether its invocation completed without raising. -/
def invoke_callbacks : List (String → Except Unit Unit) → String → List Bool
  | [], _ => []
  | cb :: rest, line =>
      (match cb line with
        | Except.ok _ => true
        | Except.error _ => false) :: invoke_callbacks rest line

/-- A reader loop run that also records the fan-out of each delivered line:
for every line pushed onto the queue, the per-subscriber delivery outcomes. -/
def run_reader_fanout (step : String → ReadStep)
    (cbs : List (String → Except Unit Unit)) :
    List String → List (OutputLine × List Bool)
  | [] => []
  | l :: rest =>
      match step l with
      | ReadStep.exit => []
      | ReadStep.deliver ol =>
          (ol, invoke_callbacks cbs ol.text) :: run_reader_fanout step cbs rest
      | ReadStep.skip => run_reader_fanout step cbs rest

/-- Display format carried by a styled run.  The source also fixes the font
family and point size identically on every run; only the foreground color
(a hex string, as fed to `QColor`) varies, so it is the modelled field. -/
structure TextFormat where
  foreground : String
deriving DecidableEq

/-- The default format applied at the start of `_process_ansi_colors` and
restored by SGR code `0`. -/
def defaultFormat : TextFormat := ⟨"#d4d4d4"⟩

/-- The fixed palette of `_process_ansi_colors` for SGR codes
30-37 and 90-97. -/
def ansiColorMap (code : Nat) : Option String :=
  match code with
  | 30 => some "#000000"
  | 31 => some "#FF5555"
  | 32 => some "#50FA7B"
  | 33 => some "#F1FA8C"
  | 34 => some "#BD93F9"
  | 35 => some "#FF79C6"
  | 36 => some "#8BE9FD"
  | 37 => some "#F8F8F2"
  | 90 => some "#6272A4"
  | 91 => some "#FF6E6E"
  | 92 => some "#69FF94"
  | 93 => some "#FFFFA5"
  | 94 => some "#D6ACFF"
  | 95 => some "#FF92DF"
  | 96 => some "#A4FFFF"
  | 97 => some "#FFFFFF"
  | _ => none

/-- Python `str.isdigit()` on a parameter piece: non-empty and all digits. -/
def pyIsDigit (l : List Char) : Bool := l ≠ [] && l.all Char.isDigit

/-- `int(...)` on a digit string. -/
def digitsToNat (l : List Char) : Nat :=
  l.foldl (fun n c => n * 10 + (c.toNat - '0'.toNat)) 0

/-- Application of a single numeric SGR parameter (`code.isdigit()` guard,
then `0` = reset to default, palette codes set the foreground, everything else
is ignored). -/
def applyCode (fmt : TextFormat) (code : List Char) : TextFormat :=
  if pyIsDigit code then
    let n := digitsToNat code
    if n = 0 then defaultFormat
    else
      match ansiColorMap n with
      | some c => ⟨c⟩
      | none => fmt
  else fmt

/-- Python `str.split(';')`, structurally recursive: `""` splits to `[""]`,
`"31;"` to `["31", ""]`. -/
def splitSemiAux : List Char → List Char → List (List Char)
  | [], acc => [acc.reverse]
  | c :: cs, acc =>
      if c = ';' then acc.reverse :: splitSemiAux cs []
      else splitSemiAux cs (c :: acc)

/-- Application of a whole captured parameter group (`ansi_code`): an empty
group leaves the format untouched (`if ansi_code:`); otherwise it is split on
`;` and each piece applied in order. -/
def applyCodes (fmt : TextFormat) (ansi_code : List Char) : TextFormat :=
  if ansi_code = [] then fmt
  else (splitSemiAux ansi_code []).foldl applyCode fmt

/-- Characters admitted by the `[0-9;]*` parameter class of the pattern. -/
def isParamChar (c : Char) : Bool := c.isDigit || c = ';'

/-- A styled run: a span of decoded text plus the format it was inserted
with. -/
structure StyledRun where
  text : List Char
  format : TextFormat
deriving DecidableEq

/-- The match of the pattern `ESC [ params* m` at the head of the input, if
any: returns the captured parameter characters and the remainder after the
terminating `m`.  The parameter class is `[0-9;]`, and since it excludes `m`
the regex's greedy match succeeds exactly when the character after the maximal
parameter run is `m`. -/
def ansiMatchAt (l : List Char) : Option (List Char × List Char) :=
  match l with
  | c1 :: c2 :: rest =>
      if c1 = '\x1b' ∧ c2 = '[' then
        match rest.dropWhile isParamChar with
        | 'm' :: rest2 => some (rest.takeWhile isParamChar, rest2)
        | _ => none
      else none
  | _ => none

/-- The scan of `finditer` over the chunk, fuelled for structural recursion
(the wrapper below supplies fuel equal to the chunk length, which always
suffices; the fuel-exhausted branch is unreachable there).  `pending` holds,
reversed, the plain characters accumulated since the last match; on a match
the pending segment is emitted as a run with the current format (only when
non-empty, mirroring `if start > last_index`), the parameter group is applied,
and scanning resumes after the match; at the end the trailing segment is
emitted with the final format. -/
def ansiRunsF (fmt : TextFormat) (pending : List Char) :
    Nat → List Char → List StyledRun
  | _, [] => if pending = [] then [] else [⟨pending.reverse, fmt⟩]
  | 0, l => [⟨pending.reverse ++ l, fmt⟩]
  | fuel + 1, c :: cs =>
      match ansiMatchAt (c :: cs) with
      | some (params, rest2) =>
          (if pending = [] then [] else [⟨pending.reverse, fmt⟩]) ++
            ansiRunsF (applyCodes fmt params) [] fuel rest2
      | none => ansiRunsF fmt (c :: pending) fuel cs

/-- The run sequence produced by `_process_ansi_colors` on a chunk, starting
from a given format. -/
def ansiRuns (fmt : TextFormat) (l : List Char) : List StyledRun :=
  ansiRunsF fmt [] l.length l

/-- The chunk with every occurrence of the escape pattern removed, by the same
fuelled scan. -/
def stripAnsiF : Nat → List Char → List Char
  | _, [] => []
  | 0, l => l
  | fuel + 1, c :: cs =>
      match ansiMatchAt (c :: cs) with
      | some (_, rest2) => stripAnsiF fuel rest2
      | none => c :: stripAnsiF fuel cs

/-- The chunk with every escape sequence removed. -/
def stripAnsi (l : List Char) : List Char := stripAnsiF l.length l

/-- `ansi_pattern.search(text)`: does the escape pattern match anywhere in the
chunk? -/
def containsAnsi : List Char → Bool
  | [] => false
  | c :: cs => (ansiMatchAt (c :: cs)).isSome || containsAnsi cs

/-- `TerminalPanel._process_ansi_colors`: `none` is the no-decoration signal
(`return None`) produced when the pattern matches nowhere; otherwise the
decoded styled runs. -/
def process_ansi_colors (text : List Char) : Option (List StyledRun) :=
  if containsAnsi text then some (ansiRuns defaultFormat text) else none

/-- The caller (`append_output`): on the no-decoration signal the whole chunk
is inserted as one run and given the default format; otherwise the decoder's
runs stand. -/
def append_output (text : List Char) : List StyledRun :=
  match process_ansi_colors text with
  | none => [⟨text, defaultFormat⟩]
  | some runs => runs

/-- Concatenation of the text of a run sequence. -/
def runsText (runs : List StyledRun) : List Char :=
  (runs.map StyledRun.text).flatten

/-- A piece of a chunk "composed of plain text and valid SGR escape
sequences", as the spec's quantification puts it. -/
inductive ChunkPiece where
  | txt (s : List Char)
  | sgr (params : List Char)
deriving DecidableEq

/-- Well-formedness of a piece: plain text contains no escape character, and
an SGR sequence's parameters are drawn from `[0-9;]`. -/
def pieceWF : ChunkPiece → Bool
  | ChunkPiece.txt s => s.all (fun c => c ≠ '\x1b')
  | ChunkPiece.sgr params => params.all isParamChar

/-- Rendering of a piece to characters; an SGR piece renders as
`ESC [ params m`. -/
def renderPiece : ChunkPiece → List Char
  | ChunkPiece.txt s => s
  | ChunkPiece.sgr params => '\x1b' :: '[' :: (params ++ ['m'])

/-- Rendering of a whole composed chunk. -/
def renderChunk (pieces : List ChunkPiece) : List Char :=
  (pieces.map renderPiece).flatten

/-- The chunk's plain text: what remains when every escape sequence is
removed. -/
def plainOf (pieces : List ChunkPiece) : List Char :=
  (pieces.map (fun pc =>
    match pc with
    | ChunkPiece.txt s => s
    | ChunkPiece.sgr _ => [])).flatten

theorem get_output_texts (q : List OutputLine) :
    (get_output q).1 = q.map OutputLine.text ∧ (get_output q).2 = [] := by
  induction q with
  | nil => exact ⟨rfl, rfl⟩
  | cons item rest ih => simp [get_output, ih.1, ih.2]

theorem invoke_callbacks_length (cbs : List (String → Except Unit Unit))
    (line : String) : (invoke_callbacks cbs line).length = cbs.length := by
  induction cbs with
  | nil => rfl
  | cons cb rest ih => simp [invoke_callbacks, ih]

theorem invoke_callbacks_getD (cbs : List (String → Except Unit Unit))
    (line : String) :
    ∀ i (h : i < cbs.length), cbs.get ⟨i, h⟩ line = Except.ok () →
      (invoke_callbacks cbs line).getD i false = true := by
  induction cbs with
  | nil =>
      intro i h
      exact absurd h (by simp)
  | cons cb rest ih =>
      intro i h hok
      cases i with
      | zero =>
          simp only [List.get] at hok
          simp [invoke_callbacks, hok]
      | succ j =>
          simp only [List.get] at hok
          simpa [invoke_callbacks] using ih j (by simpa using h) hok

/-- C7: `stop()` is idempotent and returns true on best-effort success: on a
session that was never started it returns true and leaves the run-state
Stopped, and after any completed `stop()` the process handle is cleared. -/
theorem c7_stop_terminal_idempotent (s : TMState) :
    (stop_terminal s).1 = true ∧
    (stop_terminal s).2.is_running = false ∧
    (stop_terminal s).2.process = none ∧
    stop_terminal (stop_terminal s).2 = stop_terminal s ∧
    stop_terminal ⟨s.working_directory, none, false⟩ =
      (true, ⟨s.working_directory, none, false⟩) := by
  cases s with
  | mk wd pr run => cases pr <;> simp [stop_terminal]

/-- C8 (amended): `drain(timeout)` returns the list of the text components of
everything currently queued, in queue order, emptying the queue; the stream
tag of each queued OutputLine is dropped from the result. -/
theorem c8_get_output_amended (q : List OutputLine) :
    (get_output q).1 = q.map OutputLine.text ∧ (get_output q).2 = [] :=
  get_output_texts q

/-- C8 counterexample: the claim says the drained list consists of OutputLine
values (stream tag and text); but two different queues that differ only in the
stream tag drain to the same result, so the tag is not part of it. -/
theorem c8_counterexample_stream_tag_dropped :
    (get_output [⟨StreamTag.stdout, "x"⟩]).1 =
      (get_output [⟨StreamTag.stderr, "x"⟩]).1 ∧
    (⟨StreamTag.stdout, "x"⟩ : OutputLine) ≠ ⟨StreamTag.stderr, "x"⟩ := by
  exact ⟨rfl, by decide⟩

/-- C10: the registered-subscriber list never contains duplicates; registering
an already-registered callback leaves the list unchanged, and unregistering an
absent callback leaves the list unchanged (and cannot raise, being guarded by
the membership test). -/
theorem c10_callback_registry (α : Type) [DecidableEq α] (cbs : List α) (c : α)
    (cb0 : Option α) :
    (init_callbacks cb0).Nodup ∧
    (cbs.Nodup → (register_output_callback cbs (some c)).Nodup) ∧
    (cbs.Nodup → (unregister_output_callback cbs (some c)).Nodup) ∧
    (c ∈ cbs → register_output_callback cbs (some c) = cbs) ∧
    (c ∉ cbs → unregister_output_callback cbs (some c) = cbs) ∧
    register_output_callback cbs none = cbs ∧
    unregister_output_callback cbs none = cbs := by
  refine ⟨?_, ?_, ?_, ?_, ?_, rfl, rfl⟩
  · cases cb0 <;> simp [init_callbacks]
  · intro h
    by_cases hc : c ∈ cbs
    · simpa [register_output_callback, hc] using h
    · simp only [register_output_callback, if_neg hc]
      exact List.Nodup.append h (List.nodup_singleton c)
        (fun a ha hac => hc ((List.mem_singleton.mp hac) ▸ ha))
  · intro h
    by_cases hc : c ∈ cbs
    · simpa [unregister_output_callback, hc] using h.erase c
    · simpa [unregister_output_callback, hc] using h
  · intro h; simp [register_output_callback, h]
  · intro h; simp [unregister_output_callback, h]

theorem c10_witness :
    register_output_callback [1, 2] (some 2) = [1, 2] ∧
    unregister_output_callback [1, 2] (some 3) = [1, 2] ∧
    (register_output_callback [1, 2] (some 3)).Nodup := by
  have h2 := c10_callback_registry Nat [1, 2] 2 none
  have h3 := c10_callback_registry Nat [1, 2] 3 none
  exact ⟨h2.2.2.2.1 (by decide), h3.2.2.2.2.1 (by decide), h3.2.1 (by decide)⟩

/-- C5: `changeDirectory(path)` with a non-existent path returns false leaving
the session state (best-known working directory included) unchanged; with an
existing path, on a running session whose send succeeds, it returns true and
updates the best-known working directory to that path. -/
theorem c5_change_directory (fs : String → Bool) (wOk : Bool) (s : TMState)
    (p : String) :
    (fs p = false → change_directory fs wOk s p = (false, s)) ∧
    (fs p = true → is_process_running s = true → wOk = true →
      change_directory fs wOk s p =
        (true, { s with working_directory := p })) := by
  constructor
  · intro h; simp [change_directory, h]
  · intro h hrun hw; simp [change_directory, h, hrun, hw, send_input]

theorem c5_witness :
    change_directory (fun q => q == "C:\\data") true
      ⟨"C:\\old", some ⟨1, false⟩, true⟩ "C:\\data" =
      (true, ⟨"C:\\data", some ⟨1, false⟩, true⟩) ∧
    change_directory (fun q => q == "C:\\data") true
      ⟨"C:\\old", some ⟨1, false⟩, true⟩ "C:\\nope" =
      (false, ⟨"C:\\old", some ⟨1, false⟩, true⟩) := by
  have h1 := c5_change_directory (fun q => q == "C:\\data") true
    ⟨"C:\\old", some ⟨1, false⟩, true⟩ "C:\\data"
  have h2 := c5_change_directory (fun q => q == "C:\\data") true
    ⟨"C:\\old", some ⟨1, false⟩, true⟩ "C:\\nope"
  exact ⟨h1.2 (by decide) rfl rfl, h2.1 (by decide)⟩

/-- C6 (amended): `executeCommand` returns false (sending nothing) whenever a
supplied non-empty `workingDir` does not exist on disk; an empty-string
`workingDir` is Python-falsy and is treated as not supplied, so the command is
sent unchanged; when a non-empty `workingDir` exists and the process is alive
and the write succeeds, the single sent line is
`Set-Location "<dir>"; <command>` (plus a newline iff immediate); and the
session state — the best-known working directory included — is unchanged by
`executeCommand` regardless of `workingDir`. -/
theorem c6_execute_command_amended (fs : String → Bool) (wOk : Bool)
    (s : TMState) (cmd : String) (wd : String) (imm : Bool)
    (wdo : Option String) :
    (execute_command fs wOk s cmd wdo imm).2.2 = s ∧
    (wd ≠ "" → fs wd = false →
      (execute_command fs wOk s cmd (some wd) imm).1 = false ∧
      (execute_command fs wOk s cmd (some wd) imm).2.1 = none) ∧
    execute_command fs wOk s cmd (some "") imm =
      execute_command fs wOk s cmd none imm ∧
    (wd ≠ "" → fs wd = true → is_process_running s = true → wOk = true →
      (execute_command fs wOk s cmd (some wd) imm).2.1 =
        some ("Set-Location \"" ++ wd ++ "\"; " ++ cmd ++
          (if imm then "\n" else ""))) := by
  refine ⟨?_, ?_, ?_, ?_⟩
  · unfold execute_command
    split
    · rfl
    · split
      · rfl
      · rfl
  · intro hwd hfs
    constructor <;> simp [execute_command, hwd, hfs]
  · simp [execute_command, compose_command]
  · intro hwd hfs hrun hw
    simp [execute_command, hwd, hfs, hrun, hw, send_input, compose_command]

/-- C6 counterexample: the claim quantifies over every supplied `workingDir`
and demands false when it does not exist; supplying the empty string (which
does not exist on disk: `os.path.exists("") == False`) on a live session
returns true and sends the bare command. -/
theorem c6_counterexample_empty_workdir :
    (fun _ : String => false) "" = false ∧
    execute_command (fun _ => false) true ⟨"C:\\work", some ⟨1, false⟩, true⟩
      "dir" (some "") true =
      (true, some "dir\n", ⟨"C:\\work", some ⟨1, false⟩, true⟩) := ⟨rfl, rfl⟩

theorem c6_witness :
    (execute_command (fun q => q == "C:\\data") true
      ⟨"C:\\old", some ⟨1, false⟩, true⟩ "dir" (some "C:\\data") true).2.1 =
      some "Set-Location \"C:\\data\"; dir\n" ∧
    (execute_command (fun q => q == "C:\\data") true
      ⟨"C:\\old", some ⟨1, false⟩, true⟩ "dir" (some "C:\\nope") true).1 =
      false := by
  have h1 := c6_execute_command_amended (fun q => q == "C:\\data") true
    ⟨"C:\\old", some ⟨1, false⟩, true⟩ "dir" "C:\\data" true (some "C:\\data")
  have h2 := c6_execute_command_amended (fun q => q == "C:\\data") true
    ⟨"C:\\old", some ⟨1, false⟩, true⟩ "dir" "C:\\nope" true (some "C:\\nope")
  exact ⟨h1.2.2.2 (by decide) (by decide) rfl rfl,
    (h2.2.1 (by decide) (by decide)).1⟩

/-- C2 (amended): `start()` returns false when launching the shell executable
fails; it performs no already-alive check — a spawn is attempted
unconditionally, and on spawn success the process handle is replaced and true
is returned even when a live process was already present. -/
theorem c2_start_terminal_amended (fs : String → Bool)
    (spawn : String → Option Proc) (s : TMState) :
    (start_terminal fs spawn s).2.2 = true ∧
    (spawn (powershell_path fs) = none →
      start_terminal fs spawn s = (false, s, true)) ∧
    (∀ p, spawn (powershell_path fs) = some p →
      start_terminal fs spawn s =
        (true, { s with process := some p, is_running := true }, true)) := by
  refine ⟨?_, ?_, ?_⟩
  · cases h : spawn (powershell_path fs) <;> simp [start_terminal, h]
  · intro h; simp [start_terminal, h]
  · intro p h; simp [start_terminal, h]

/-- C2 counterexample: on a session whose process already appears alive
(`is_process_running = true`), `start()` with a succeeding spawn returns true
and installs a second child's handle (pid 2 replacing live pid 1), spawn
attempted — the claim requires false and no second spawn. -/
theorem c2_counterexample_start_while_alive :
    is_process_running ⟨"C:\\work", some ⟨1, false⟩, true⟩ = true ∧
    start_terminal (fun _ => true) (fun _ => some ⟨2, false⟩)
      ⟨"C:\\work", some ⟨1, false⟩, true⟩ =
      (true, ⟨"C:\\work", some ⟨2, false⟩, true⟩, true) := ⟨rfl, rfl⟩

theorem c2_witness :
    start_terminal (fun _ => false) (fun _ => none) ⟨"C:\\w", none, false⟩ =
      (false, ⟨"C:\\w", none, false⟩, true) :=
  (c2_start_terminal_amended (fun _ => false) (fun _ => none)
    ⟨"C:\\w", none, false⟩).2.1 rfl

/-- C1 (amended): `getCurrentDirectory` returns the stored best-known working
directory without any I/O whenever it is non-empty — whether or not the
process is alive — so after a command changes the child's directory a
subsequent call returns the stale stored value.  Only when the stored
directory is empty does aliveness matter: not alive returns the process
default directory; alive performs the DirectoryQuery (send the directory-query
directive, settle, drain, filter prompt/header noise) and stores and returns
the normalization of the first remaining line that looks like a filesystem
path, falling back to the default when no line qualifies. -/
theorem c1_get_current_directory_amended (cwd : String) (np : String → String)
    (s : TMState) (q : List OutputLine) :
    (s.working_directory ≠ "" →
      get_current_directory cwd np s q = (s.working_directory, s, false)) ∧
    (s.working_directory = "" → is_process_running s = false →
      get_current_directory cwd np s q = (cwd, s, false)) ∧
    (s.working_directory = "" → is_process_running s = true →
      (∀ p, first_acceptable (q.map OutputLine.text) = some p →
        get_current_directory cwd np s q =
          (np p, { s with working_directory := np p }, true)) ∧
      (first_acceptable (q.map OutputLine.text) = none →
        get_current_directory cwd np s q = (cwd, s, true))) := by
  refine ⟨?_, ?_, ?_⟩
  · intro h; simp [get_current_directory, h]
  · intro h hrun; simp [get_current_directory, h, hrun]
  · intro h hrun
    constructor
    · intro p hp
      simp [get_current_directory, h, hrun, (get_output_texts q).1, hp]
    · intro hp
      simp [get_current_directory, h, hrun, (get_output_texts q).1, hp]

/-- C1 counterexample: a session whose best-known working directory was set
(`C:\work`) and whose process is alive; the output queue even holds an
acceptable updated path (`D:\new`), yet `getCurrentDirectory` performs no
DirectoryQuery (third component `false`) and returns the stale stored value —
the claim requires a DirectoryQuery and the updated path. -/
theorem c1_counterexample_alive_no_query :
    is_process_running ⟨"C:\\work", some ⟨1, false⟩, true⟩ = true ∧
    acceptable_path "D:\\new\n" = true ∧
    get_current_directory "C:\\cwd" (fun p => p)
      ⟨"C:\\work", some ⟨1, false⟩, true⟩ [⟨StreamTag.stdout, "D:\\new\n"⟩] =
      ("C:\\work", ⟨"C:\\work", some ⟨1, false⟩, true⟩, false) :=
  ⟨rfl, by decide, rfl⟩

theorem c1_witness :
    get_current_directory "C:\\cwd" (fun p => p) ⟨"", some ⟨1, false⟩, true⟩
      [⟨StreamTag.stdout, "C:\\Users\n"⟩] =
      ("C:\\Users", ⟨"C:\\Users", some ⟨1, false⟩, true⟩, true) := by
  have h := (c1_get_current_directory_amended "C:\\cwd" (fun p => p)
    ⟨"", some ⟨1, false⟩, true⟩ [⟨StreamTag.stdout, "C:\\Users\n"⟩]).2.2
    rfl rfl
  exact h.1 "C:\\Users" (by decide)

/-- C3 (amended): each reader loop reads one line per iteration while the
run-state is Running; on end-of-stream (empty read) the stdout loop exits but
the stderr loop does not — it skips the iteration and keeps looping; every
read line with non-blank content (stdout) or any non-empty line (stderr) is
wrapped as an OutputLine carrying the stream tag and the text, pushed onto the
delivery queue, and offered to every registered subscriber callback. -/
theorem c3_reader_loops_amended (l : String) (rest : List String)
    (cbs : List (String → Except Unit Unit)) :
    stdout_step "" = ReadStep.exit ∧
    stderr_step "" = ReadStep.skip ∧
    (pyStrip l ≠ "" →
      stdout_step l = ReadStep.deliver ⟨StreamTag.stdout, l⟩ ∧
      run_reader stdout_step (l :: rest) =
        ⟨StreamTag.stdout, l⟩ :: run_reader stdout_step rest) ∧
    (l ≠ "" →
      stderr_step l = ReadStep.deliver ⟨StreamTag.stderr, l⟩ ∧
      run_reader stderr_step (l :: rest) =
        ⟨StreamTag.stderr, l⟩ :: run_reader stderr_step rest) ∧
    run_reader stdout_step ("" :: rest) = [] ∧
    run_reader stderr_step ("" :: rest) = run_reader stderr_step rest ∧
    (invoke_callbacks cbs l).length = cbs.length := by
  have hne : pyStrip l ≠ "" → l ≠ "" := by
    intro h he
    subst he
    exact h rfl
  refine ⟨rfl, rfl, ?_, ?_, ?_, ?_, invoke_callbacks_length cbs l⟩
  · intro h
    have hl := hne h
    constructor <;> simp [stdout_step, run_reader, hl, h]
  · intro h
    constructor <;> simp [stderr_step, run_reader, h]
  · simp [run_reader, stdout_step]
  · simp [run_reader, stderr_step]

/-- C3 counterexample: the claim requires both loops to exit when the read
returns end-of-stream; the stderr loop does not — after an empty read it keeps
looping and still delivers a later line. -/
theorem c3_counterexample_stderr_eof :
    stderr_step "" ≠ ReadStep.exit ∧
    run_reader stderr_step ["", "boom\n"] = [⟨StreamTag.stderr, "boom\n"⟩] :=
  ⟨by decide, rfl⟩

theorem c3_witness :
    stdout_step "echo\n" = ReadStep.deliver ⟨StreamTag.stdout, "echo\n"⟩ ∧
    stderr_step "err\n" = ReadStep.deliver ⟨StreamTag.stderr, "err\n"⟩ := by
  have h1 := c3_reader_loops_amended "echo\n" [] []
  have h2 := c3_reader_loops_amended "err\n" [] []
  exact ⟨(h1.2.2.1 (by decide)).1, (h2.2.2.2.1 (by decide)).1⟩

/-- C4: fan-out isolation — every registered subscriber is invoked on every
delivered line (the outcome list covers the whole subscriber list), a
subscriber that does not raise receives the line no matter what the others do,
and the reader loop's queue contents are unaffected by subscriber failures
(each callback's raise is confined to its own try/except). -/
theorem c4_callback_isolation (cbs : List (String → Except Unit Unit))
    (line : String) (i : Nat) (h : i < cbs.length)
    (step : String → ReadStep) (stream : List String) :
    (invoke_callbacks cbs line).length = cbs.length ∧
    (cbs.get ⟨i, h⟩ line = Except.ok () →
      (invoke_callbacks cbs line).getD i false = true) ∧
    (run_reader_fanout step cbs stream).map Prod.fst =
      run_reader step stream ∧
    (∀ entry ∈ run_reader_fanout step cbs stream,
      entry.2 = invoke_callbacks cbs entry.1.text) := by
  refine ⟨invoke_callbacks_length cbs line, invoke_callbacks_getD cbs line i h,
    ?_, ?_⟩
  · induction stream with
    | nil => rfl
    | cons l rest ih =>
        cases hs : step l <;> simp [run_reader_fanout, run_reader, hs, ih]
  · induction stream with
    | nil => simp [run_reader_fanout]
    | cons l rest ih =>
        intro entry hmem
        cases hs : step l with
        | exit => simp [run_reader_fanout, hs] at hmem
        | deliver ol =>
            simp only [run_reader_fanout, hs, List.mem_cons] at hmem
            cases hmem with
            | inl he => simp [he]
            | inr hm => exact ih entry hm
        | skip =>
            simp only [run_reader_fanout, hs] at hmem
            exact ih entry hmem

theorem c4_witness :
    (invoke_callbacks [fun _ => Except.error (), fun _ => Except.ok ()]
      "x").getD 1 false = true ∧
    (invoke_callbacks [fun _ => Except.error (), fun _ => Except.ok ()]
      "x").length = 2 := by
  have h := c4_callback_isolation
    [fun _ => Except.error (), fun _ => Except.ok ()] "x" 1 (by decide)
    stdout_step []
  exact ⟨h.2.1 rfl, h.1⟩

theorem runsText_append (a b : List StyledRun) :
    runsText (a ++ b) = runsText a ++ runsText b := by
  simp [runsText]

theorem length_dropWhile_param_le (l : List Char) :
    (l.dropWhile isParamChar).length ≤ l.length := by
  induction l with
  | nil => simp
  | cons c cs ih =>
      rw [List.dropWhile_cons]
      split
      · exact Nat.le_succ_of_le ih
      · exact Nat.le_refl _

theorem ansiMatchAt_length : ∀ {l p r : List Char},
    ansiMatchAt l = some (p, r) → r.length < l.length := by
  intro l p r h
  unfold ansiMatchAt at h
  split at h
  next c1 c2 rest =>
    split at h
    · split at h
      next rest2 heq =>
        have hle : ('m' :: rest2).length ≤ rest.length := by
          rw [← heq]
          exact length_dropWhile_param_le rest
        obtain ⟨rfl, rfl⟩ := Prod.mk.injEq .. ▸ Option.some.injEq .. ▸ h
        simp only [List.length_cons] at hle ⊢
        omega
      next => exact absurd h (by simp)
    · exact absurd h (by simp)
  next => exact absurd h (by simp)

theorem runsText_ansiRunsF (fuel : Nat) :
    ∀ (l : List Char) (fmt : TextFormat) (pending : List Char),
      runsText (ansiRunsF fmt pending fuel l) =
        pending.reverse ++ stripAnsiF fuel l := by
  induction fuel with
  | zero =>
      intro l fmt pending
      cases l with
      | nil => cases pending <;> simp [ansiRunsF, stripAnsiF, runsText]
      | cons c cs => simp [ansiRunsF, stripAnsiF, runsText]
  | succ fuel ih =>
      intro l fmt pending
      cases l with
      | nil => cases pending <;> simp [ansiRunsF, stripAnsiF, runsText]
      | cons c cs =>
          cases hm : ansiMatchAt (c :: cs) with
          | some pr =>
              obtain ⟨params, rest2⟩ := pr
              simp only [ansiRunsF, stripAnsiF, hm]
              rw [runsText_append, ih rest2]
              cases pending <;> simp [runsText]
          | none =>
              simp only [ansiRunsF, stripAnsiF, hm]
              rw [ih cs]
              simp

theorem stripAnsiF_fuel : ∀ (f1 f2 : Nat) (l : List Char),
    l.length ≤ f1 → l.length ≤ f2 → stripAnsiF f1 l = stripAnsiF f2 l := by
  intro f1
  induction f1 with
  | zero =>
      intro f2 l h1 _
      have hl : l = [] := by
        cases l with
        | nil => rfl
        | cons c cs => simp at h1
      subst hl
      cases f2 <;> simp [stripAnsiF]
  | succ g ih =>
      intro f2 l h1 h2
      cases l with
      | nil => cases f2 <;> simp [stripAnsiF]
      | cons c cs =>
          cases f2 with
          | zero => simp at h2
          | succ g2 =>
              simp only [stripAnsiF]
              cases hm : ansiMatchAt (c :: cs) with
              | some pr =>
                  obtain ⟨p, r⟩ := pr
                  have hr := ansiMatchAt_length hm
                  simp only [List.length_cons] at h1 h2 hr
                  exact ih g2 r (by omega) (by omega)
              | none =>
                  simp only [List.length_cons] at h1 h2
                  rw [ih g2 cs (by omega) (by omega)]

theorem stripAnsi_cons_none {c : Char} {l : List Char}
    (h : ansiMatchAt (c :: l) = none) :
    stripAnsi (c :: l) = c :: stripAnsi l := by
  simp [stripAnsi, stripAnsiF, h]

theorem stripAnsi_cons_some {c : Char} {l p r : List Char}
    (h : ansiMatchAt (c :: l) = some (p, r)) :
    stripAnsi (c :: l) = stripAnsi r := by
  have hr := ansiMatchAt_length h
  simp only [List.length_cons] at hr
  simp only [stripAnsi, List.length_cons, stripAnsiF, h]
  exact stripAnsiF_fuel l.length r.length r (by omega) (Nat.le_refl _)

theorem ansiMatchAt_ne_esc {c : Char} {l : List Char} (h : c ≠ '\x1b') :
    ansiMatchAt (c :: l) = none := by
  cases l with
  | nil => rfl
  | cons c2 rest => simp [ansiMatchAt, h]

theorem param_run_drop : ∀ (params rest : List Char),
    params.all isParamChar = true →
    (params ++ 'm' :: rest).dropWhile isParamChar = 'm' :: rest ∧
      (params ++ 'm' :: rest).takeWhile isParamChar = params := by
  intro params
  induction params with
  | nil => intro rest _; exact ⟨rfl, rfl⟩
  | cons p ps ih =>
      intro rest hall
      simp only [List.all_cons, Bool.and_eq_true] at hall
      obtain ⟨hp, hps⟩ := hall
      obtain ⟨ihd, iht⟩ := ih rest hps
      constructor
      · rw [List.cons_append, List.dropWhile_cons_of_pos hp, ihd]
      · rw [List.cons_append, List.takeWhile_cons_of_pos hp, iht]

theorem stripAnsi_append_plain : ∀ (s rest : List Char),
    s.all (fun c => c ≠ '\x1b') = true →
    stripAnsi (s ++ rest) = s ++ stripAnsi rest := by
  intro s
  induction s with
  | nil => intro rest _; rfl
  | cons c cs ih =>
      intro rest hall
      simp only [List.all_cons, Bool.and_eq_true] at hall
      obtain ⟨hc, hcs⟩ := hall
      have hc2 : c ≠ '\x1b' := by simpa using hc
      rw [List.cons_append, stripAnsi_cons_none (ansiMatchAt_ne_esc hc2),
        ih rest hcs, List.cons_append]

theorem stripAnsi_sgr (params rest : List Char)
    (h : params.all isParamChar = true) :
    stripAnsi ('\x1b' :: '[' :: (params ++ 'm' :: rest)) = stripAnsi rest := by
  have hmatch : ansiMatchAt ('\x1b' :: '[' :: (params ++ 'm' :: rest)) =
      some (params, rest) := by
    simp [ansiMatchAt, (param_run_drop params rest h).1,
      (param_run_drop params rest h).2]
  exact stripAnsi_cons_some hmatch

theorem stripAnsi_renderChunk : ∀ (pieces : List ChunkPiece),
    pieces.all pieceWF = true →
    stripAnsi (renderChunk pieces) = plainOf pieces := by
  intro pieces
  induction pieces with
  | nil => intro _; rfl
  | cons pc rest ih =>
      intro hall
      simp only [List.all_cons, Bool.and_eq_true] at hall
      obtain ⟨hpc, hrest⟩ := hall
      cases pc with
      | txt s =>
          simp only [renderChunk, plainOf, List.map_cons, List.flatten_cons,
            renderPiece]
          rw [stripAnsi_append_plain s _ (by simpa [pieceWF] using hpc)]
          simp only [plainOf, renderChunk] at ih
          rw [ih hrest]
      | sgr params =>
          simp only [renderChunk, plainOf, List.map_cons, List.flatten_cons,
            renderPiece]
          have hre : ('\x1b' :: '[' :: (params ++ ['m'])) ++
              (rest.map renderPiece).flatten =
              '\x1b' :: '[' :: (params ++ 'm' ::
                (rest.map renderPiece).flatten) := by
            simp
          rw [hre, stripAnsi_sgr params _ (by simpa [pieceWF] using hpc)]
          simp only [plainOf, renderChunk] at ih
          rw [ih hrest]
          simp

theorem process_runsText {t : List Char} {runs : List StyledRun}
    (h : process_ansi_colors t = some runs) :
    runsText runs = stripAnsi t := by
  simp only [process_ansi_colors] at h
  split at h
  · obtain rfl := (Option.some.injEq .. ▸ h).symm
    have hm := runsText_ansiRunsF t.length t defaultFormat []
    simpa [ansiRuns, stripAnsi] using hm
  · exact absurd h (by simp)

/-- C9: for every chunk, concatenating the text of all styled runs emitted by
the escape decoder equals the chunk with every escape sequence removed (no
overlap, no gaps): on a chunk composed of plain text and valid SGR sequences
that is exactly the plain text; and for a chunk with no escape sequences the
decoder returns the no-decoration signal, so the caller inserts the chunk as a
single default-formatted run equal to the input. -/
theorem c9_ansi_decoder (text : List Char) (pieces : List ChunkPiece) :
    (containsAnsi text = false →
      process_ansi_colors text = none ∧
      append_output text = [⟨text, defaultFormat⟩]) ∧
    (∀ runs, process_ansi_colors text = some runs →
      runsText runs = stripAnsi text) ∧
    (pieces.all pieceWF = true →
      stripAnsi (renderChunk pieces) = plainOf pieces) ∧
    (pieces.all pieceWF = true →
      ∀ runs, process_ansi_colors (renderChunk pieces) = some runs →
        runsText runs = plainOf pieces) := by
  refine ⟨?_, fun runs h => process_runsText h,
    fun h => stripAnsi_renderChunk pieces h,
    fun h runs hr => (process_runsText hr).trans (stripAnsi_renderChunk pieces h)⟩
  intro h
  constructor
  · simp [process_ansi_colors, h]
  · simp [append_output, process_ansi_colors, h]

theorem c9_witness :
    runsText (ansiRuns defaultFormat
      (renderChunk [ChunkPiece.sgr ['3', '1'], ChunkPiece.txt ['A', 'B'],
        ChunkPiece.sgr ['0'], ChunkPiece.txt ['C']])) = ['A', 'B', 'C'] ∧
    append_output ['h', 'i'] = [⟨['h', 'i'], defaultFormat⟩] := by
  have h := c9_ansi_decoder
    (renderChunk [ChunkPiece.sgr ['3', '1'], ChunkPiece.txt ['A', 'B'],
      ChunkPiece.sgr ['0'], ChunkPiece.txt ['C']])
    [ChunkPiece.sgr ['3', '1'], ChunkPiece.txt ['A', 'B'],
      ChunkPiece.sgr ['0'], ChunkPiece.txt ['C']]
  have h2 := c9_ansi_decoder ['h', 'i'] []
  refine ⟨(h.2.2.2 (by decide) _ rfl).trans (by decide), (h2.1 (by decide)).2⟩
